import Mathlib

/- Verification of the lsst-ts scriptqueue core against its specification,
via a shallow embedding of queue_model.py and base_script.py. Paths are
modelled after python pathlib, the scheduler state after QueueModel, and
the child runtime after BaseScript. Fields of ScriptInfo and the index
allocator live in files not provided with the sources; those parts are
modelled from the specification and marked as such. -/

/-- Pure POSIX path, as in python pathlib PurePosixPath: a flag for
absoluteness and the list of components. Components "." are assumed
already dropped, as pathlib drops them; ".." components are kept. -/
structure PPath where
  absolute : Bool
  parts : List String
deriving DecidableEq

namespace PPath

/-- pathlib joinpath: an absolute right operand replaces the left one;
otherwise components are concatenated. No normalization happens. -/
def joinpath (p q : PPath) : PPath :=
  if q.absolute then q else ⟨p.absolute, p.parts ++ q.parts⟩

/-- Whether r is one of the parents of f, as in the pathlib expression
"root in fullpath.parents": the parents are obtained by dropping trailing
components one at a time, down to the anchor. Equivalently: same
absoluteness and the components of r are a proper prefix of those of f.
Note that ".." components are not resolved here, exactly as in pathlib. -/
def inParents (r f : PPath) : Bool :=
  r.absolute == f.absolute && r.parts != f.parts && r.parts.isPrefixOf f.parts

/-- Final component of the path, "" when there is none. -/
def nameOf (p : PPath) : String := p.parts.getLast?.getD ""

/-- Resolve ".." components of an absolute path, as the operating system
does when the path is actually opened: ".." removes the previous
component, and the parent of the root is the root itself. -/
def resolveAbs (parts : List String) : List String :=
  parts.foldl (fun acc c => if c = ".." then acc.dropLast else acc ++ [c]) []

/-- Canonical form of a path; meaningful for absolute paths, which is the
only way it is used (the configured roots are absolute). -/
def resolve (p : PPath) : PPath := ⟨p.absolute, resolveAbs p.parts⟩

end PPath

/-- First character of a string, if any. -/
def strHead? (s : String) : Option Char := s.data.head?

/-- Whether the file name is invisible or private: its first character is
"." or "_" (queue_model.py line 337). -/
def hiddenName (nm : String) : Bool :=
  match strHead? nm with
  | some c => c == '.' || c == '_'
  | none => false

/-- Filesystem oracle: which canonical paths are regular files and which
are executable. The real checks fullpath.is_file() and os.access(X_OK)
operate on the canonical path, because the OS resolves ".." components. -/
structure FS where
  isFile : PPath → Bool
  isExec : PPath → Bool

/-- Failure causes of QueueModel.make_full_path (each is a ValueError in
the source, distinguished by its message). -/
inductive PathErr
  | notUnderRoot
  | notFound
  | hiddenOrPrivate
  | notExecutable
deriving DecidableEq

/-- QueueModel.make_full_path (queue_model.py lines 303-341): join the
relative path onto the root selected by is_standard, require the root to
be among the parents of the joined path, then require an existing file
whose name does not start with "." or "_" and which is executable.
The filesystem tests consult the canonical path, as the OS does; the
root-containment test does not canonicalize, exactly as in the source. -/
def make_full_path (fs : FS) (standardpath externalpath : PPath)
    (is_standard : Bool) (path : PPath) : Except PathErr PPath :=
  let root := if is_standard then standardpath else externalpath
  let fullpath := root.joinpath path
  if !(root.inParents fullpath) then .error .notUnderRoot
  else if !(fs.isFile fullpath.resolve) then .error .notFound
  else if hiddenName fullpath.nameOf then .error .hiddenOrPrivate
  else if !(fs.isExec fullpath.resolve) then .error .notExecutable
  else .ok fullpath

/-- Child-side script lifecycle states (the wire enumeration of spec
section 6, in its stated order). -/
inductive ScriptState
  | UNCONFIGURED | CONFIGURED | RUNNING | PAUSED | ENDING
  | STOPPING | FAILING | DONE | STOPPED | FAILED
deriving DecidableEq

/-- Wire ordinal of a script state, following the stated order. -/
def ScriptState.ord : ScriptState → ℕ
  | .UNCONFIGURED => 1
  | .CONFIGURED => 2
  | .RUNNING => 3
  | .PAUSED => 4
  | .ENDING => 5
  | .STOPPING => 6
  | .FAILING => 7
  | .DONE => 8
  | .STOPPED => 9
  | .FAILED => 10

/-- Parent-visible process states (spec section 6). -/
inductive ProcessState
  | UNKNOWN | LOADING | CONFIGURED | RUNNING | DONE | TERMINATED | FAILED
deriving DecidableEq

/-- Modelled from the spec: the per-script state owned by ScriptInfo
(script_info.py is not among the provided sources; spec section 3 lists
its fields). Process handles, timestamps and metadata are omitted: the
scheduler logic under verification reads only the fields below. -/
structure Script where
  index : ℕ
  seq_num : ℕ
  is_standard : Bool
  path : PPath
  config : String
  descr : String
  group_id : String
  setting_group_id : Bool
  script_state : ScriptState
  process_state : ProcessState
  process_done : Bool
  terminated : Bool
  failed : Bool
deriving DecidableEq

namespace Script

/-- Modelled from the spec, section 3 derived predicates: configured means
the script state reached CONFIGURED and the process is still alive. -/
def configured (s : Script) : Bool :=
  (ScriptState.CONFIGURED.ord ≤ s.script_state.ord) && !s.process_done

/-- Modelled from the spec, section 3: runnable means configured, holding
a group id, and the process not done. -/
def runnable (s : Script) : Bool :=
  s.configured && s.group_id != "" && !s.process_done

/-- Modelled from the spec, section 3: a configured script with no group
id and no group-id command in flight needs one assigned. -/
def needs_group_id (s : Script) : Bool :=
  s.configured && s.group_id == "" && !s.setting_group_id

/-- Modelled from the spec, section 4.3: clearing the group id is an
unconditional local update (the optional command to the child changes no
scheduler-visible field). -/
def clear_group_id (s : Script) : Script :=
  { s with group_id := "", setting_group_id := false }

/-- Modelled from the spec, section 4.3 state machine: dispatching the run
command moves the parent-side process state to RUNNING. No other
scheduler-visible field changes synchronously. -/
def run (s : Script) : Script := { s with process_state := .RUNNING }

end Script

/-- Maximum length of the history deque (queue_model.py line 41). -/
def MAX_HISTORY : ℕ := 400

/-- Scheduler state of QueueModel (queue_model.py, constructor lines
128-188). The queue front is the list head; history is newest-first. The
log, callbacks and the remote are omitted: they carry no scheduler state.
The index generator becomes the counter field, per spec section 9. -/
structure QueueModel where
  queue : List Script
  history : List Script
  current_script : Option Script
  enabled : Bool
  running : Bool
  scripts_being_stopped : List ℕ
  index_counter : ℕ
  min_sal_index : ℕ
  max_sal_index : ℕ
deriving DecidableEq

namespace QueueModel

/-- collections.deque(maxlen=MAX_HISTORY).appendleft: the new element goes
to the front; when the deque is full the element at the back is dropped. -/
def histAppendLeft (s : Script) (h : List Script) : List Script :=
  (s :: h).take MAX_HISTORY

/-- SAL indices of the scripts on the queue (queue_model.py line 239). -/
def queue_indices (m : QueueModel) : List ℕ := m.queue.map Script.index

/-- SAL indices of the scripts on the history queue (line 234). -/
def history_indices (m : QueueModel) : List ℕ := m.history.map Script.index

/-- Whether the current script exists and has the given SAL index. -/
def currentIndexIs (m : QueueModel) (i : ℕ) : Bool :=
  match m.current_script with
  | some cur => cur.index == i
  | none => false

/-- The skim loop of _update_queue (lines 891-907): pop scripts that are
process-done or terminated off the queue front onto history, stopping at
the first script that is neither. -/
def skimQueue : List Script → List Script → List Script × List Script
  | [], h => ([], h)
  | s :: rest, h =>
    if s.process_done || s.terminated then skimQueue rest (histAppendLeft s h)
    else (s :: rest, h)

/-- Group-id staging of _update_queue (lines 909-919): the top script is
left alone (assigning it a group id happens in a background task, which
changes no scheduler state synchronously); every other queued script with
a set or in-flight group id has it cleared. -/
def clearIfStaged (s : Script) : Script :=
  if s.group_id != "" || s.setting_group_id then s.clear_group_id else s

def stageGroupIds : List Script → List Script
  | [] => []
  | top :: rest => top :: rest.map clearIfStaged

/-- Step 1 of _update_queue (lines 876-886): if the current script has a
done process, either retain it and pause the queue (when it failed and
pause_on_failure holds or the queue is paused) or move it to history. -/
def reapCurrent (pause_on_failure : Bool) (m : QueueModel) : QueueModel :=
  match m.current_script with
  | some cur =>
    if cur.process_done then
      if cur.failed && (pause_on_failure || !m.running) then
        { m with running := false }
      else
        { m with history := histAppendLeft cur m.history, current_script := none }
    else m
  | none => m

/-- Steps 2-5 of _update_queue (lines 888-919): when enabled and running,
skim done scripts from the queue front, promote the front to current when
it is runnable and not being stopped, then stage group ids. -/
def advanceQueue (m : QueueModel) : QueueModel :=
  if m.enabled && m.running then
    let p := skimQueue m.queue m.history
    let m2 :=
      match p.1 with
      | [] => { m with queue := [], history := p.2 }
      | top :: rest =>
        if m.current_script.isNone && top.runnable
            && !(m.scripts_being_stopped.contains top.index) then
          { m with queue := rest, history := p.2, current_script := some top.run }
        else
          { m with queue := top :: rest, history := p.2 }
    { m2 with queue := stageGroupIds m2.queue }
  else m

/-- QueueModel._update_queue (lines 853-931). The queue_callback at the
end changes no scheduler state (its exceptions are swallowed), so the
force_callback argument is dropped from the model. The gate of step 2
reads the running flag as updated by step 1, as in the source. -/
def update_queue (pause_on_failure : Bool) (m : QueueModel) : QueueModel :=
  advanceQueue (reapCurrent pause_on_failure m)

/-- Remove and return the first script with the given index, as
deque.index plus del do in pop_script_info (lines 393-409). -/
def popFirst (i : ℕ) : List Script → Option (Script × List Script)
  | [] => none
  | s :: rest =>
    if s.index = i then some (s, rest)
    else (popFirst i rest).map (fun p => (p.1, s :: p.2))

/-- QueueModel._remove_script (lines 702-725): if the removed script is
current, removal itself is delegated to _update_queue; if it is queued,
pop it onto history. In both branches _update_queue runs, except while
other scripts of the same stop request are still being stopped. -/
def remove_script (i : ℕ) (m : QueueModel) : QueueModel :=
  if m.currentIndexIs i then
    if m.scripts_being_stopped.contains i then
      let m1 := { m with scripts_being_stopped := m.scripts_being_stopped.erase i }
      if m1.scripts_being_stopped.isEmpty then update_queue true m1 else m1
    else update_queue true m
  else
    match popFirst i m.queue with
    | some p =>
      let m1 := { m with queue := p.2, history := histAppendLeft p.1 m.history }
      if m1.scripts_being_stopped.contains i then
        let m2 := { m1 with scripts_being_stopped := m1.scripts_being_stopped.erase i }
        if m2.scripts_being_stopped.isEmpty then update_queue true m2 else m2
      else update_queue true m1
    | none => m

end QueueModel

/-- Modelled from the spec, section 6: the Location enumeration carried on
the wire (the enum class lives in ts_idl, outside the provided sources).
Values follow the stated order; any other value is unknown. -/
def locFirst : ℕ := 1
def locLast : ℕ := 2
def locBefore : ℕ := 3
def locAfter : ℕ := 4

/-- Failure causes of the queue operations (each a ValueError in the
source, distinguished by its message). -/
inductive QueueErr
  | notQueued
  | refNotQueued
  | unknownLocation
  | scriptNotFound
  | noFreeIndex
  | pathErr (e : PathErr)
deriving DecidableEq

namespace QueueModel

/-- Position of the first script with the given index on the queue, as
get_queue_index (queue_model.py lines 260-274); none when deque.index
raises ValueError. -/
def idxOf (i : ℕ) (q : List Script) : Option ℕ :=
  q.findIdx? (fun s => s.index == i)

/-- The insertion step of QueueModel._insert_script (lines 684-697):
FIRST prepends, LAST appends, BEFORE and AFTER insert relative to the
position of the reference script, appending when the computed position
is past the end. An unknown location value or an absent reference script
raises before any mutation. The callback assignment and the _update_queue
call that follow in the source are handled by the callers below. -/
def insertScript (q : List Script) (s : Script) (location loc_index : ℕ) :
    Except QueueErr (List Script) :=
  if location = locFirst then .ok (s :: q)
  else if location = locLast then .ok (q ++ [s])
  else if location = locBefore ∨ location = locAfter then
    match idxOf loc_index q with
    | none => .error .refNotQueued
    | some k =>
      let k2 := if location = locAfter then k + 1 else k
      if q.length ≤ k2 then .ok (q ++ [s]) else .ok (q.insertIdx k2 s)
  else .error .unknownLocation

/-- QueueModel.move (lines 343-385), written imperatively as the source
is: the state after the call is returned together with the error, if any.
Moving a script BEFORE or AFTER itself only verifies membership and runs
_update_queue. Otherwise the queue is saved, the script popped, and the
insertion attempted; on an insertion error the saved queue is restored
and the error re-raised. On success _insert_script runs _update_queue. -/
def move (m : QueueModel) (sal_index location loc_index : ℕ) :
    QueueModel × Option QueueErr :=
  if (location = locBefore ∨ location = locAfter) ∧ loc_index = sal_index then
    if (idxOf sal_index m.queue).isSome then (update_queue true m, none)
    else (m, some .notQueued)
  else
    let old_queue := m.queue
    match popFirst sal_index m.queue with
    | none => (m, some .notQueued)
    | some p =>
      let m1 := { m with queue := p.2 }
      match insertScript m1.queue p.1 location loc_index with
      | .error e => ({ m1 with queue := old_queue }, some e)
      | .ok q2 => (update_queue true { m1 with queue := q2 }, none)

/-- QueueModel.get_script_info (lines 276-301): search the current
script, then the queue, then (when asked) history; none models the
ValueError raised when nothing is found. -/
def get_script_info (m : QueueModel) (i : ℕ) (search_history : Bool) :
    Option Script :=
  if m.currentIndexIs i then m.current_script
  else
    match m.queue.find? (fun s => s.index == i) with
    | some s => some s
    | none =>
      if search_history then m.history.find? (fun s => s.index == i) else none

/-- SAL indices of live scripts: the current script and the queue. History
scripts have exited and are no longer live on the bus. -/
def liveIndices (m : QueueModel) : List ℕ :=
  (match m.current_script with | some c => [c.index] | none => []) ++
    m.queue.map Script.index

/-- Candidate indices in generator order: the full wrapped range starting
at the counter. -/
def candidateIndices (m : QueueModel) : List ℕ :=
  let span := m.max_sal_index + 1 - m.min_sal_index
  (List.range span).map
    (fun k => m.min_sal_index + (m.index_counter + k) % span)

/-- Modelled from the spec, section 4.2: the index allocator (the
generator lives in the salobj dependency, outside the provided sources)
returns the next integer in the configured range, wrapping on exhaustion
and skipping any index currently live; none when every index is live. -/
def nextSalIndex (m : QueueModel) : Option ℕ :=
  (candidateIndices m).find? (fun i => !((liveIndices m).contains i))

/-- QueueModel.add (lines 190-226): resolve the path first, so that a bad
path raises before any mutation, then insert. start_loading spawns the
child process, which changes no scheduler-visible state synchronously;
_insert_script runs _update_queue on success. -/
def add (fs : FS) (standardpath externalpath : PPath) (m : QueueModel)
    (s : Script) (location loc_index : ℕ) : Except QueueErr QueueModel :=
  match make_full_path fs standardpath externalpath s.is_standard s.path with
  | .error e => .error (.pathErr e)
  | .ok _ =>
    match insertScript m.queue s location loc_index with
    | .error e => .error e
    | .ok q2 => .ok (update_queue true { m with queue := q2 })

/-- Modelled from the spec, section 3: a freshly constructed ScriptInfo,
as ScriptInfo.__init__ builds one for requeue (script_info.py is not
among the provided sources): the copied identification fields plus the
initial lifecycle state. -/
def newScript (index seq_num : ℕ) (old : Script) : Script :=
  { index := index
    seq_num := seq_num
    is_standard := old.is_standard
    path := old.path
    config := old.config
    descr := old.descr
    group_id := ""
    setting_group_id := false
    script_state := .UNCONFIGURED
    process_state := .UNKNOWN
    process_done := false
    terminated := false
    failed := false }

/-- QueueModel.requeue (lines 411-467): find the source script among
current, queue and history; build a fresh ScriptInfo with the next SAL
index and the copied is_standard, path, config and descr; then add it. -/
def requeue (fs : FS) (standardpath externalpath : PPath) (m : QueueModel)
    (sal_index seq_num location loc_index : ℕ) :
    Except QueueErr (QueueModel × Script) :=
  match get_script_info m sal_index true with
  | none => .error .scriptNotFound
  | some old =>
    match nextSalIndex m with
    | none => .error .noFreeIndex
    | some newIndex =>
      let m1 := { m with index_counter := newIndex + 1 }
      let s := newScript newIndex seq_num old
      match add fs standardpath externalpath m1 s location loc_index with
      | .error e => .error e
      | .ok m2 => .ok (m2, s)

end QueueModel

/-- Child-side observable state of a running BaseScript, the fields read
and written by BaseScript.checkpoint (base_script.py lines 217-253). The
checkpoints event holds the two regular expressions. -/
structure BaseScriptState where
  state : ScriptState
  lastCheckpoint : String
  pauseRegex : String
  stopRegex : String
  runTaskExists : Bool
  runTaskDone : Bool
deriving DecidableEq

/-- Control-flow outcome of awaiting checkpoint, per spec section 9: stop
raises cancellation, pause blocks until resume then returns to RUNNING,
continue publishes the checkpoint and yields. -/
inductive CheckpointOutcome
  | cancelStop
  | pauseUntilResume
  | continueRun
deriving DecidableEq

/-- BaseScript.checkpoint (base_script.py lines 217-253), with the python
regular-expression engine abstracted as the fullmatch argument: a
RuntimeError unless the state is RUNNING with a live run task; then, if
the stop regex fully matches the name, the state becomes STOPPING and
CancelledError is raised; otherwise if the pause regex fully matches, the
state becomes PAUSED and the script blocks until resume (after which it
returns to RUNNING); otherwise the name is published as the last
checkpoint and the state stays RUNNING. The returned state is the one
observable at the suspension point. -/
def checkpointStep (fullmatch : String → String → Bool)
    (b : BaseScriptState) (name : String) :
    Except String (BaseScriptState × CheckpointOutcome) :=
  if b.state ≠ ScriptState.RUNNING then
    .error "checkpoint error: state is not RUNNING"
  else if !b.runTaskExists then
    .error "checkpoint error: state is RUNNING but no run_task"
  else if b.runTaskDone then
    .error "checkpoint error: state is RUNNING but run_task is done"
  else if fullmatch b.stopRegex name then
    .ok ({ b with state := .STOPPING, lastCheckpoint := name }, .cancelStop)
  else if fullmatch b.pauseRegex name then
    .ok ({ b with state := .PAUSED, lastCheckpoint := name }, .pauseUntilResume)
  else
    .ok ({ b with lastCheckpoint := name }, .continueRun)

/-- Numeric value of a list of decimal digits. -/
def digitsToNat (l : List Char) : ℕ :=
  l.foldl (fun n c => 10 * n + (c.toNat - 48)) 0

/-- Integer accepted by the argparse type int: an optional leading minus
sign followed by at least one decimal digit. -/
def parseIntArg (s : String) : Option Int :=
  match s.data with
  | [] => none
  | c :: cs =>
    if c = '-' then
      if !cs.isEmpty && cs.all Char.isDigit then
        some (-(Int.ofNat (digitsToNat cs)))
      else none
    else if (c :: cs).all Char.isDigit then some (Int.ofNat (digitsToNat (c :: cs)))
    else none

/-- Whether the argument is written as a long option. -/
def longOption (a : String) : Bool :=
  match a.data with
  | '-' :: '-' :: _ => true
  | _ => false

/-- BaseScript.main (base_script.py lines 120-151): the argparse parser
declares exactly one positional argument, index, of type int, and no
optional argument of its own. argparse exits with status 2 on an
unrecognized option or a wrong argument count, and a leading "--" marks
an option. The automatic help option is left out of the model. On success
the parsed index is returned and the script runs. -/
def parseMainArgs (args : List String) : Except ℕ Int :=
  if args.any longOption then .error 2
  else
    match args with
    | [a] =>
      match parseIntArg a with
      | some i => .ok i
      | none => .error 2
    | _ => .error 2

namespace QueueModel

/-- All SAL indices held by the three containers, current first, then the
queue, then history. Invariant 1 of the spec asks this list to have no
duplicate. -/
def allIndices (m : QueueModel) : List ℕ :=
  (match m.current_script with | some c => [c.index] | none => []) ++
    m.queue.map Script.index ++ m.history.map Script.index

end QueueModel

/-- A script with neither a set nor an in-flight group id. -/
def groupCleared (s : Script) : Bool :=
  s.group_id == "" && !s.setting_group_id

/-- Invariant 3 of the spec: every queued script other than the front one
has neither a set nor an in-flight group id, so at most one queued script
holds one and it can only be the front. -/
def groupMonopoly (q : List Script) : Bool :=
  (q.drop 1).all groupCleared

/-- Standard root directory used by the concrete examples. -/
def stdRoot : PPath := ⟨true, ["std"]⟩

/-- External root directory used by the concrete examples. -/
def extRoot : PPath := ⟨true, ["ext"]⟩

/-- A relative path that climbs out of its root with "..". -/
def escPath : PPath := ⟨false, ["..", "x"]⟩

/-- Filesystem in which the canonical escape target of escPath exists and
is executable. -/
def fsEsc : FS :=
  ⟨fun p => p == ⟨true, ["x"]⟩, fun p => p == ⟨true, ["x"]⟩⟩

/-- Filesystem in which the standard script "script1" exists and is
executable. -/
def fsStd : FS :=
  ⟨fun p => p == ⟨true, ["std", "script1"]⟩,
   fun p => p == ⟨true, ["std", "script1"]⟩⟩

/-- A configured, waiting script with the given index. -/
def sampleScript (i : ℕ) : Script :=
  { index := i
    seq_num := 0
    is_standard := true
    path := ⟨false, ["script1"]⟩
    config := "wait_time: 0.5"
    descr := "sample"
    group_id := ""
    setting_group_id := false
    script_state := .CONFIGURED
    process_state := .CONFIGURED
    process_done := false
    terminated := false
    failed := false }

/-- A runnable front script: configured and already holding a group id. -/
def stagedS : Script :=
  { sampleScript 1000 with group_id := "2020-01-17T22:59:05.721" }

/-- An enabled, running queue model with a runnable front script and an
idle second script. -/
def mAdv : QueueModel :=
  { queue := [stagedS, sampleScript 1001]
    history := []
    current_script := none
    enabled := true
    running := true
    scripts_being_stopped := []
    index_counter := 1002
    min_sal_index := 1000
    max_sal_index := 1010 }

/-- A current script whose process exited after a failure. -/
def failedS : Script :=
  { sampleScript 1003 with
      process_done := true
      failed := true
      script_state := .FAILED
      process_state := .FAILED }

/-- A queue model whose current script has failed, with another script
waiting on the queue. -/
def mFail : QueueModel :=
  { queue := [sampleScript 1004]
    history := []
    current_script := some failedS
    enabled := true
    running := true
    scripts_being_stopped := []
    index_counter := 1005
    min_sal_index := 1000
    max_sal_index := 1010 }

/-- A paused (not enabled) queue model holding one script, used to requeue
it. -/
def mReq : QueueModel :=
  { queue := [sampleScript 1000]
    history := []
    current_script := none
    enabled := false
    running := true
    scripts_being_stopped := []
    index_counter := 1001
    min_sal_index := 1000
    max_sal_index := 1010 }

/-- The script that requeuing the script of mReq constructs. -/
def sReqNew : Script := QueueModel.newScript 1001 5 (sampleScript 1000)

/-- The queue model that requeuing the script of mReq at LAST produces. -/
def mReqPost : QueueModel :=
  { queue := [sampleScript 1000, sReqNew]
    history := []
    current_script := none
    enabled := false
    running := true
    scripts_being_stopped := []
    index_counter := 1002
    min_sal_index := 1000
    max_sal_index := 1010 }

/-- A running child script with a pause regex "start" and a stop regex
"end", as scenario S3 of the spec sets them. -/
def bRun : BaseScriptState :=
  { state := .RUNNING
    lastCheckpoint := ""
    pauseRegex := "start"
    stopRegex := "end"
    runTaskExists := true
    runTaskDone := false }

/-- Regular-expression matcher used by the concrete examples: full match
by literal string equality. -/
def eqMatch : String → String → Bool := fun r s => r == s

/-- Decidable equality for Except results, so that concrete runs of the
model evaluate inside proofs. -/
instance {ε α : Type} [DecidableEq ε] [DecidableEq α] :
    DecidableEq (Except ε α)
  | .ok a, .ok b =>
    if h : a = b then .isTrue (congrArg Except.ok h)
    else .isFalse (fun he => h (Except.ok.inj he))
  | .error a, .error b =>
    if h : a = b then .isTrue (congrArg Except.error h)
    else .isFalse (fun he => h (Except.error.inj he))
  | .ok _, .error _ => .isFalse (fun he => Except.noConfusion he)
  | .error _, .ok _ => .isFalse (fun he => Except.noConfusion he)

/-- C1 counterexample: the relative path "../x" under the standard root
"/std" has the root among the syntactic parents of "/std/../x", so
make_full_path raises no error and returns that path, although the
canonical parent chain of its resolution "/x" does not contain the root.
The claim that every such path fails with NotUnderRoot is therefore
false. -/
theorem make_full_path_dotdot_escape :
    make_full_path fsEsc stdRoot extRoot true escPath =
      .ok ⟨true, ["std", "..", "x"]⟩ ∧
    stdRoot.inParents ((stdRoot.joinpath escPath).resolve) = false := by
  decide

/-- C1 amended: make_full_path fails with NotUnderRoot exactly when the
configured root is not among the syntactic, un-normalized parents of the
joined path; ".." components are not resolved by this check, so a path
containing ".." can canonically escape the root and still be returned.
The function is pure, so a failing call performs no side effect. -/
theorem make_full_path_root_check_syntactic
    (fs : FS) (sp ep : PPath) (std : Bool) (p : PPath) :
    make_full_path fs sp ep std p = .error .notUnderRoot ↔
      (if std then sp else ep).inParents ((if std then sp else ep).joinpath p)
        = false := by
  simp only [make_full_path]
  split_ifs with h1 h2 h3 h4 <;>
    simp_all [Bool.not_eq_true', Bool.not_eq_false]

/-- C1 witness: the amended characterization evaluated at the external
root and the escaping path. -/
theorem make_full_path_root_check_witness :
    make_full_path fsEsc stdRoot extRoot false escPath = .error .notUnderRoot ↔
      (if false then stdRoot else extRoot).inParents
        ((if false then stdRoot else extRoot).joinpath escPath) = false :=
  make_full_path_root_check_syntactic fsEsc stdRoot extRoot false escPath

/-- C9: the command line of BaseScript.main declares only the positional
index argument, so the invocation with the extra option "--schema" makes
the argument parser exit with status 2, while the plain invocation with
the index alone parses and runs the script. The claim that "--schema"
prints the schema and exits 0 contradicts this (and the repository test
test_script_schema_process expects exit 0). -/
theorem main_rejects_schema_flag :
    parseMainArgs ["1", "--schema"] = .error 2 ∧
    parseMainArgs ["1"] = .ok 1 := by
  decide

/-- C8: for a running script with a live run task, awaiting a checkpoint
named n moves the state to STOPPING with a cancellation exactly when the
stop regex fully matches n; otherwise it moves to PAUSED, blocking until
resume, exactly when the pause regex fully matches n; otherwise it
publishes n as the last checkpoint and the state stays RUNNING. The stop
regex takes precedence over the pause regex. -/
theorem checkpoint_regex_semantics (fullmatch : String → String → Bool)
    (b : BaseScriptState) (n : String)
    (hr : b.state = ScriptState.RUNNING) (ht : b.runTaskExists = true)
    (hd : b.runTaskDone = false) :
    (fullmatch b.stopRegex n = true →
      checkpointStep fullmatch b n =
        .ok ({ b with state := .STOPPING, lastCheckpoint := n },
          .cancelStop)) ∧
    (fullmatch b.stopRegex n = false → fullmatch b.pauseRegex n = true →
      checkpointStep fullmatch b n =
        .ok ({ b with state := .PAUSED, lastCheckpoint := n },
          .pauseUntilResume)) ∧
    (fullmatch b.stopRegex n = false → fullmatch b.pauseRegex n = false →
      checkpointStep fullmatch b n =
        .ok ({ b with lastCheckpoint := n }, .continueRun) ∧
      ({ b with lastCheckpoint := n } : BaseScriptState).state =
        ScriptState.RUNNING) ∧
    (∀ b2 o, checkpointStep fullmatch b n = .ok (b2, o) →
      ((o = .cancelStop ∧ b2.state = .STOPPING) ↔
        fullmatch b.stopRegex n = true) ∧
      (fullmatch b.stopRegex n = false →
        ((o = .pauseUntilResume ∧ b2.state = .PAUSED) ↔
          fullmatch b.pauseRegex n = true))) := by
  cases hstop : fullmatch b.stopRegex n <;>
    cases hpause : fullmatch b.pauseRegex n <;>
      simp_all [checkpointStep, hr]

/-- C8 witness: with literal-equality matching, pause regex "start" and
stop regex "end", the checkpoint named "end" stops the script. -/
theorem checkpoint_regex_witness :
    checkpointStep eqMatch bRun "end" =
      .ok ({ bRun with state := .STOPPING, lastCheckpoint := "end" },
        .cancelStop) :=
  (checkpoint_regex_semantics eqMatch bRun "end" rfl rfl rfl).1 (by decide)

namespace QueueModel

/-- A queue model whose running flag is already false is unchanged by
setting it to false. -/
theorem running_false_eta (x : QueueModel) (hx : x.running = false) :
    { x with running := false } = x := by
  cases x
  simp_all

/-- C4: when the current script has a done process and failed, the update
step with pause_on_failure leaves that script as current (not moved to
history), clears the running flag, touches neither the queue nor the
history, and every further update step leaves the state fixed, so the
queue cannot advance until running is set true again. -/
theorem update_queue_pause_on_failure (m : QueueModel) (cur : Script)
    (hc : m.current_script = some cur) (hd : cur.process_done = true)
    (hf : cur.failed = true) :
    update_queue true m = { m with running := false } ∧
    (update_queue true m).current_script = some cur ∧
    (update_queue true m).running = false ∧
    (update_queue true m).queue = m.queue ∧
    (update_queue true m).history = m.history ∧
    (∀ pof, update_queue pof (update_queue true m) = update_queue true m) := by
  have h1 : reapCurrent true m = { m with running := false } := by
    simp [reapCurrent, hc, hd, hf]
  have h2 : update_queue true m = { m with running := false } := by
    unfold update_queue
    rw [h1]
    unfold advanceQueue
    simp
  refine ⟨h2, by rw [h2]; exact hc, by rw [h2], by rw [h2], by rw [h2], ?_⟩
  intro pof
  rw [h2]
  have h3 : reapCurrent pof { m with running := false } =
      { m with running := false } := by
    simp [reapCurrent, hc, hd, hf]
  unfold update_queue
  rw [h3]
  unfold advanceQueue
  simp

end QueueModel

/-- C4 witness: the failed current script of mFail is retained and the
queue pauses. -/
theorem pause_on_failure_witness :
    QueueModel.update_queue true mFail = { mFail with running := false } :=
  (QueueModel.update_queue_pause_on_failure mFail failedS rfl rfl rfl).1

namespace QueueModel

/-- Step 1 of the update never touches the queue. -/
theorem reap_queue (pof : Bool) (m : QueueModel) :
    (reapCurrent pof m).queue = m.queue := by
  cases hc : m.current_script <;> simp [reapCurrent, hc] <;> split_ifs <;> rfl

/-- Step 1 of the update never touches the enabled flag. -/
theorem reap_enabled (pof : Bool) (m : QueueModel) :
    (reapCurrent pof m).enabled = m.enabled := by
  cases hc : m.current_script <;> simp [reapCurrent, hc] <;> split_ifs <;> rfl

/-- Step 1 of the update can clear the running flag but never set it. -/
theorem reap_running_true (pof : Bool) (m : QueueModel)
    (h : (reapCurrent pof m).running = true) : m.running = true := by
  cases hc : m.current_script <;> simp [reapCurrent, hc] at h <;> try exact h
  split_ifs at h <;> simp_all

/-- When the queue is not both enabled and running, the gate of steps 2-5
stays false after step 1. -/
theorem gate_false (pof : Bool) (m : QueueModel)
    (h : ¬(m.enabled = true ∧ m.running = true)) :
    ((reapCurrent pof m).enabled && (reapCurrent pof m).running) = false := by
  rw [reap_enabled]
  cases he : m.enabled
  · simp
  · cases hr : (reapCurrent pof m).running
    · simp
    · exact absurd ⟨he, reap_running_true pof m hr⟩ h

/-- Steps 2-5 do nothing when the gate is false. -/
theorem advance_of_gate_false (m : QueueModel)
    (h : (m.enabled && m.running) = false) : advanceQueue m = m := by
  unfold advanceQueue
  rw [h]
  simp

/-- When the queue is not both enabled and running, the update step leaves
the queue contents untouched. -/
theorem update_queue_queue_of_paused (m : QueueModel)
    (h : ¬(m.enabled = true ∧ m.running = true)) :
    (update_queue true m).queue = m.queue := by
  unfold update_queue
  rw [advance_of_gate_false _ (gate_false true m h)]
  exact reap_queue true m

/-- C10: move is atomic on error. Whenever the call reports an error, the
whole scheduler state, in particular the queue contents and order, is
exactly the state from before the call; and when the popped script cannot
be re-inserted (unknown location value, or BEFORE/AFTER a reference index
not on the remaining queue), the saved queue is restored and exactly the
insertion error is re-raised. -/
theorem move_error_atomicity (m : QueueModel) (i loc li : ℕ) :
    (∀ e, (move m i loc li).2 = some e → (move m i loc li).1 = m) ∧
    (∀ s rest e, popFirst i m.queue = some (s, rest) →
      insertScript rest s loc li = .error e →
      ¬((loc = locBefore ∨ loc = locAfter) ∧ li = i) →
      move m i loc li = (m, some e)) := by
  constructor
  · intro e he
    by_cases hself : (loc = locBefore ∨ loc = locAfter) ∧ li = i
    · by_cases hq : (idxOf i m.queue).isSome = true
      · simp [move, hself, hq] at he
      · simp [move, hself, hq]
    · cases hp : popFirst i m.queue with
      | none => simp [move, hself, hp]
      | some p =>
        cases hins : insertScript p.2 p.1 loc li with
        | error e2 => simp [move, hself, hp, hins]
        | ok q2 => simp [move, hself, hp, hins] at he
  · intro s rest e hpop hins hself
    simp [move, hself, hpop, hins]

/-- C6 counterexample: with an enabled, running queue whose front script
is runnable and no current script, moving the front script BEFORE itself
reports no error yet changes the queue contents: the embedded update step
promotes the front script to current. The claim that such a move leaves
the queue contents and order unchanged is therefore false. -/
theorem move_self_changes_queue :
    (move mAdv 1000 locBefore 1000).1.queue ≠ mAdv.queue ∧
    (move mAdv 1000 locBefore 1000).2 = none := by
  decide

/-- C6 amended: moving a queued script BEFORE or AFTER itself performs no
re-insertion or reordering of its own; after validating membership it
only runs the standard scheduler update step, and whenever the queue is
not both enabled and running that step leaves the queue contents and
order unchanged. When the index is not on the queue, both calls fail with
the not-queued error without changing anything. -/
theorem move_self_runs_scheduler_step (m : QueueModel) (i : ℕ) :
    ((idxOf i m.queue).isSome = true →
      move m i locBefore i = (update_queue true m, none) ∧
      move m i locAfter i = (update_queue true m, none)) ∧
    ((idxOf i m.queue).isSome = false →
      move m i locBefore i = (m, some .notQueued) ∧
      move m i locAfter i = (m, some .notQueued)) ∧
    (¬(m.enabled = true ∧ m.running = true) →
      (update_queue true m).queue = m.queue) := by
  refine ⟨fun hq => ⟨?_, ?_⟩, fun hq => ⟨?_, ?_⟩, update_queue_queue_of_paused m⟩ <;>
    simp [move, locBefore, locAfter, hq]

end QueueModel

/-- C10 witness: moving the front script of mAdv to the unknown location
value 99 restores the state and reports the unknown-location error. -/
theorem move_error_atomicity_witness :
    QueueModel.move mAdv 1000 99 0 = (mAdv, some .unknownLocation) :=
  (QueueModel.move_error_atomicity mAdv 1000 99 0).2 stagedS
    [sampleScript 1001] .unknownLocation (by decide) (by decide) (by decide)

/-- C6 witness: the amended statement evaluated on mAdv, whose front
script has index 1000. -/
theorem move_self_witness :
    QueueModel.move mAdv 1000 locBefore 1000 =
      (QueueModel.update_queue true mAdv, none) :=
  ((QueueModel.move_self_runs_scheduler_step mAdv 1000).1 (by decide)).1

/-- The staging pass leaves every script it touches with neither a set
nor an in-flight group id. -/
theorem clearIfStaged_cleared (s : Script) :
    groupCleared (QueueModel.clearIfStaged s) = true := by
  unfold QueueModel.clearIfStaged
  split_ifs with h
  · simp [Script.clear_group_id, groupCleared]
  · simp only [Bool.or_eq_true, bne_iff_ne, ne_eq, not_or, not_not] at h
    simp [groupCleared, h.1, h.2]

/-- After the staging pass, every queued script other than the front one
has a cleared group id. -/
theorem stage_monopoly (q : List Script) :
    groupMonopoly (QueueModel.stageGroupIds q) = true := by
  cases q with
  | nil => rfl
  | cons top rest =>
    simp only [QueueModel.stageGroupIds, groupMonopoly, List.drop_succ_cons,
      List.drop_zero, List.all_eq_true, List.mem_map]
    rintro s ⟨a, -, rfl⟩
    exact clearIfStaged_cleared a

namespace QueueModel

/-- Steps 2-5 do not change the enabled flag. -/
theorem advance_enabled (m : QueueModel) :
    (advanceQueue m).enabled = m.enabled := by
  unfold advanceQueue
  split_ifs with hg
  · cases hq : (skimQueue m.queue m.history).1 <;> simp [hq] <;> split_ifs <;> rfl
  · rfl

/-- Steps 2-5 do not change the running flag. -/
theorem advance_running (m : QueueModel) :
    (advanceQueue m).running = m.running := by
  unfold advanceQueue
  split_ifs with hg
  · cases hq : (skimQueue m.queue m.history).1 <;> simp [hq] <;> split_ifs <;> rfl
  · rfl

/-- When the gate holds, the queue left by steps 2-5 is a staged queue,
hence satisfies the group-id monopoly. -/
theorem advance_monopoly_of_gate (m : QueueModel)
    (hg : (m.enabled && m.running) = true) :
    groupMonopoly (advanceQueue m).queue = true := by
  unfold advanceQueue
  rw [hg]
  cases hq : (skimQueue m.queue m.history).1 with
  | nil => simp [hq, stage_monopoly]
  | cons top rest => simp [hq] <;> split_ifs <;> simp [stage_monopoly]

/-- C3: the group-id monopoly is an invariant of the update step: if at
most the front queued script holds a set or in-flight group id before the
step, the same holds after it; moreover whenever the step ends with the
queue enabled and running, the staging pass has cleared the set or
in-flight group id of every queued script other than the front one, so
the monopoly then holds outright. -/
theorem update_queue_group_id_monopoly (m : QueueModel) (pof : Bool) :
    (groupMonopoly m.queue = true →
      groupMonopoly (update_queue pof m).queue = true) ∧
    ((update_queue pof m).enabled = true →
      (update_queue pof m).running = true →
      groupMonopoly (update_queue pof m).queue = true) := by
  unfold update_queue
  rcases Bool.eq_false_or_eq_true
      ((reapCurrent pof m).enabled && (reapCurrent pof m).running) with hg | hg
  · exact ⟨fun _ => advance_monopoly_of_gate _ hg,
      fun _ _ => advance_monopoly_of_gate _ hg⟩
  · rw [advance_of_gate_false _ hg]
    constructor
    · intro hm
      rw [reap_queue]
      exact hm
    · intro he hr
      rw [he, hr] at hg
      simp at hg

end QueueModel

/-- C3 witness: after one update step of mAdv, every queued script behind
the front has a cleared group id. -/
theorem group_id_monopoly_witness :
    groupMonopoly (QueueModel.update_queue true mAdv).queue = true :=
  (QueueModel.update_queue_group_id_monopoly mAdv true).1 (by decide)

namespace QueueModel

/-- A bounded appendleft never exceeds the bound. -/
theorem histAppendLeft_length_le (s : Script) (h : List Script) :
    (histAppendLeft s h).length ≤ MAX_HISTORY := by
  simp [histAppendLeft]

/-- A bounded appendleft onto a full deque drops exactly the element at
the back, the oldest one. -/
theorem histAppendLeft_full (s : Script) (h : List Script)
    (hh : h.length = MAX_HISTORY) : histAppendLeft s h = s :: h.dropLast := by
  rw [List.dropLast_eq_take, hh]
  show List.take (399 + 1) (s :: h) = s :: List.take (MAX_HISTORY - 1) h
  rw [List.take_succ_cons]
  rfl

/-- The skim loop keeps the history within the bound. -/
theorem skim_hist_le (q : List Script) : ∀ h : List Script,
    h.length ≤ MAX_HISTORY → ((skimQueue q h).2).length ≤ MAX_HISTORY := by
  induction q with
  | nil => intro h hh; simpa [skimQueue] using hh
  | cons s rest ih =>
    intro h hh
    by_cases hd : (s.process_done || s.terminated) = true
    · simp only [skimQueue, hd, if_true]
      exact ih _ (histAppendLeft_length_le _ _)
    · simpa [skimQueue, hd] using hh

/-- Step 1 keeps the history within the bound. -/
theorem reap_hist_le (pof : Bool) (m : QueueModel)
    (hh : m.history.length ≤ MAX_HISTORY) :
    (reapCurrent pof m).history.length ≤ MAX_HISTORY := by
  cases hc : m.current_script <;>
    simp only [reapCurrent, hc] <;>
    first
      | exact hh
      | (split_ifs <;> first | exact hh | exact histAppendLeft_length_le _ _)

/-- Steps 2-5 either keep the history or replace it with the skimmed
history. -/
theorem advance_hist (m : QueueModel) :
    (advanceQueue m).history = m.history ∨
    (advanceQueue m).history = (skimQueue m.queue m.history).2 := by
  unfold advanceQueue
  split_ifs with hg
  · right
    cases hq : (skimQueue m.queue m.history).1 <;> simp [hq] <;> split_ifs <;> rfl
  · left
    rfl

/-- The update step keeps the history within the bound. -/
theorem update_hist_le (pof : Bool) (m : QueueModel)
    (hh : m.history.length ≤ MAX_HISTORY) :
    (update_queue pof m).history.length ≤ MAX_HISTORY := by
  unfold update_queue
  have h1 := reap_hist_le pof m hh
  rcases advance_hist (reapCurrent pof m) with h2 | h2 <;> rw [h2]
  · exact h1
  · exact skim_hist_le _ _ h1

/-- Script removal keeps the history within the bound. -/
theorem remove_hist_le (i : ℕ) (m : QueueModel)
    (hh : m.history.length ≤ MAX_HISTORY) :
    (remove_script i m).history.length ≤ MAX_HISTORY := by
  unfold remove_script
  by_cases hcur : m.currentIndexIs i = true
  · simp only [hcur, if_true]
    by_cases hstop : m.scripts_being_stopped.contains i = true
    · simp only [hstop, if_true]
      split_ifs
      · exact update_hist_le _ _ hh
      · exact hh
    · simp only [hstop, if_false, Bool.false_eq_true]
      exact update_hist_le _ _ hh
  · simp only [hcur, if_false, Bool.false_eq_true]
    cases hp : popFirst i m.queue with
    | none => simpa using hh
    | some p =>
      simp only
      split_ifs
      · exact update_hist_le _ _ (histAppendLeft_length_le _ _)
      · exact histAppendLeft_length_le _ _
      · exact update_hist_le _ _ (histAppendLeft_length_le _ _)

/-- C5: the history deque never holds more than 400 entries, the newest
entry goes to the front, a 401st insertion evicts exactly the entry at
the back (the oldest), and both scheduler steps that push to history
preserve the bound. -/
theorem history_bound_and_eviction :
    (∀ (s : Script) (h : List Script),
      (histAppendLeft s h).length ≤ MAX_HISTORY) ∧
    (∀ (s : Script) (h : List Script), h.length = MAX_HISTORY →
      histAppendLeft s h = s :: h.dropLast) ∧
    (∀ (m : QueueModel) (pof : Bool) (i : ℕ),
      m.history.length ≤ MAX_HISTORY →
      (update_queue pof m).history.length ≤ MAX_HISTORY ∧
      (remove_script i m).history.length ≤ MAX_HISTORY) :=
  ⟨histAppendLeft_length_le, histAppendLeft_full,
    fun m pof i hh => ⟨update_hist_le pof m hh, remove_hist_le i m hh⟩⟩

end QueueModel

/-- C5 witness: the bound evaluated on one update and one removal step of
mAdv. -/
theorem history_bound_witness :
    (QueueModel.update_queue true mAdv).history.length ≤ MAX_HISTORY ∧
    (QueueModel.remove_script 1001 mAdv).history.length ≤ MAX_HISTORY :=
  QueueModel.history_bound_and_eviction.2.2 mAdv true 1001 (by decide)

namespace QueueModel

/-- The staging pass does not change the indices on the queue. -/
theorem stage_idx (q : List Script) :
    (stageGroupIds q).map Script.index = q.map Script.index := by
  cases q with
  | nil => rfl
  | cons top rest =>
    simp only [stageGroupIds, List.map_cons, List.map_map]
    congr 1
    apply List.map_congr_left
    intro a _
    simp only [Function.comp_apply]
    unfold clearIfStaged
    split_ifs <;> rfl

/-- The bag of identifiers held by the three containers, as a multiset. -/
theorem allIndices_coe (m : QueueModel) :
    ((allIndices m : List ℕ) : Multiset ℕ) =
      ((match m.current_script with
        | some c => [c.index]
        | none => ([] : List ℕ)) : Multiset ℕ) +
      ((m.queue.map Script.index : List ℕ) : Multiset ℕ) +
      ((m.history.map Script.index : List ℕ) : Multiset ℕ) := by
  cases hc : m.current_script <;>
    simp [allIndices, hc, Multiset.coe_add, List.cons_append]

/-- Appending to the bounded history only keeps identifiers that were
pushed. -/
theorem histAppendLeft_idx_le (s : Script) (h : List Script) :
    (((histAppendLeft s h).map Script.index : List ℕ) : Multiset ℕ) ≤
      s.index ::ₘ ((h.map Script.index : List ℕ) : Multiset ℕ) := by
  have h1 : List.Sublist (histAppendLeft s h) (s :: h) := List.take_sublist _ _
  have h2 : List.Subperm ((histAppendLeft s h).map Script.index)
      ((s :: h).map Script.index) := (h1.map Script.index).subperm
  have h3 := Multiset.coe_le.mpr h2
  simpa using h3

/-- The skim loop moves identifiers from the queue to history and can
only drop identifiers through the history bound, never duplicate one. -/
theorem skim_idx_le (q : List Script) : ∀ h : List Script,
    ((((skimQueue q h).1.map Script.index : List ℕ) : Multiset ℕ) +
      (((skimQueue q h).2.map Script.index : List ℕ) : Multiset ℕ)) ≤
      (((q.map Script.index : List ℕ) : Multiset ℕ) +
        ((h.map Script.index : List ℕ) : Multiset ℕ)) := by
  induction q with
  | nil => intro h; simp [skimQueue]
  | cons s rest ih =>
    intro h
    by_cases hd : (s.process_done || s.terminated) = true
    · simp only [skimQueue, hd, if_true]
      calc ((((skimQueue rest (histAppendLeft s h)).1.map Script.index :
              List ℕ) : Multiset ℕ) +
            (((skimQueue rest (histAppendLeft s h)).2.map Script.index :
              List ℕ) : Multiset ℕ))
          ≤ ((rest.map Script.index : List ℕ) : Multiset ℕ) +
              (((histAppendLeft s h).map Script.index : List ℕ) :
                Multiset ℕ) := ih _
        _ ≤ ((rest.map Script.index : List ℕ) : Multiset ℕ) +
              (s.index ::ₘ ((h.map Script.index : List ℕ) : Multiset ℕ)) :=
            add_le_add_left (histAppendLeft_idx_le s h) _
        _ = (((s :: rest).map Script.index : List ℕ) : Multiset ℕ) +
              ((h.map Script.index : List ℕ) : Multiset ℕ) := by
            simp only [List.map_cons, ← Multiset.cons_coe, Multiset.add_cons,
              Multiset.cons_add]
    · simp [skimQueue, hd]

/-- Step 1 only moves the current identifier to history or keeps state. -/
theorem reap_idx_le (pof : Bool) (m : QueueModel) :
    ((allIndices (reapCurrent pof m) : List ℕ) : Multiset ℕ) ≤
      ((allIndices m : List ℕ) : Multiset ℕ) := by
  cases hc : m.current_script with
  | none =>
    simp only [reapCurrent, hc]
    exact le_rfl
  | some cur =>
    simp only [reapCurrent, hc]
    split_ifs with h1 h2
    · simp only [allIndices_coe, hc]
      exact le_rfl
    · simp only [allIndices_coe, hc]
      refine le_trans
        (add_le_add_left (histAppendLeft_idx_le cur m.history) _)
        (le_of_eq ?_)
      simp only [Multiset.coe_nil, Multiset.coe_singleton, Multiset.add_cons,
        Multiset.singleton_add, Multiset.cons_add, zero_add]
    · simp only [allIndices_coe, hc]
      exact le_rfl

/-- Steps 2-5 move identifiers between the containers and can only drop
identifiers through the history bound, never duplicate one. -/
theorem advance_idx_le (m : QueueModel) :
    ((allIndices (advanceQueue m) : List ℕ) : Multiset ℕ) ≤
      ((allIndices m : List ℕ) : Multiset ℕ) := by
  unfold advanceQueue
  split_ifs with hg
  · have hsk := skim_idx_le m.queue m.history
    cases hq : (skimQueue m.queue m.history).1 with
    | nil =>
      rw [hq] at hsk
      simp only [hq]
      rw [allIndices_coe, allIndices_coe]
      simp only [stage_idx, List.map_nil, Multiset.coe_nil, zero_add] at hsk ⊢
      rw [add_assoc, add_assoc]
      exact add_le_add_left (le_trans (le_of_eq (zero_add _).symm) hsk) _
    | cons top rest =>
      rw [hq] at hsk
      simp only [hq]
      split_ifs with hpro
      · have hcn : m.current_script = none := by
          rcases h3 : m.current_script with _ | c
          · rfl
          · rw [h3] at hpro
            simp at hpro
        rw [allIndices_coe, allIndices_coe]
        simp only [stage_idx, hcn]
        calc (([(Script.run top).index] : List ℕ) : Multiset ℕ) +
              ((rest.map Script.index : List ℕ) : Multiset ℕ) +
              (((skimQueue m.queue m.history).2.map Script.index : List ℕ) :
                Multiset ℕ)
            = (((top :: rest).map Script.index : List ℕ) : Multiset ℕ) +
              (((skimQueue m.queue m.history).2.map Script.index : List ℕ) :
                Multiset ℕ) := by
              simp only [Script.run, List.map_cons, Multiset.coe_singleton,
                Multiset.singleton_add, Multiset.cons_coe]
          _ ≤ ((m.queue.map Script.index : List ℕ) : Multiset ℕ) +
              ((m.history.map Script.index : List ℕ) : Multiset ℕ) := hsk
          _ = (([] : List ℕ) : Multiset ℕ) +
              ((m.queue.map Script.index : List ℕ) : Multiset ℕ) +
              ((m.history.map Script.index : List ℕ) : Multiset ℕ) := by
              simp
      · rw [allIndices_coe, allIndices_coe]
        simp only [stage_idx]
        rw [add_assoc, add_assoc]
        exact add_le_add_left hsk _
  · exact le_rfl

/-- The update step can only drop identifiers, never duplicate one. -/
theorem update_idx_le (pof : Bool) (m : QueueModel) :
    ((allIndices (update_queue pof m) : List ℕ) : Multiset ℕ) ≤
      ((allIndices m : List ℕ) : Multiset ℕ) :=
  le_trans (advance_idx_le _) (reap_idx_le pof m)

/-- Popping the first script with a given index is a permutation of the
queue. -/
theorem popFirst_perm (i : ℕ) : ∀ (q : List Script) (s : Script)
    (rest : List Script), popFirst i q = some (s, rest) →
      q.Perm (s :: rest) := by
  intro q
  induction q with
  | nil => intro s rest h; simp [popFirst] at h
  | cons a q2 ih =>
    intro s rest h
    by_cases ha : a.index = i
    · simp only [popFirst, ha, if_true, Option.some.injEq, Prod.mk.injEq] at h
      rw [← h.1, ← h.2]
    · simp only [popFirst, ha, if_false] at h
      cases hp : popFirst i q2 with
      | none => rw [hp] at h; simp at h
      | some p =>
        rw [hp] at h
        simp only [Option.map_some', Option.some.injEq, Prod.mk.injEq] at h
        have hq2 := ih p.1 p.2 hp
        rw [← h.1, ← h.2]
        exact (hq2.cons a).trans (List.Perm.swap p.1 a p.2)

/-- Script removal only moves the removed identifier to history, possibly
dropping identifiers through the history bound; it never duplicates one. -/
theorem remove_idx_le (i : ℕ) (m : QueueModel) :
    ((allIndices (remove_script i m) : List ℕ) : Multiset ℕ) ≤
      ((allIndices m : List ℕ) : Multiset ℕ) := by
  unfold remove_script
  by_cases hcur : m.currentIndexIs i = true
  · simp only [hcur, if_true]
    by_cases hstop : m.scripts_being_stopped.contains i = true
    · simp only [hstop, if_true]
      split_ifs
      · exact update_idx_le _ _
      · exact le_rfl
    · simp only [hstop, if_false, Bool.false_eq_true]
      exact update_idx_le _ _
  · simp only [hcur, if_false, Bool.false_eq_true]
    cases hp : popFirst i m.queue with
    | none => exact le_rfl
    | some p =>
      have hperm := popFirst_perm i m.queue p.1 p.2 (by rw [hp])
      have hm1 : ((allIndices { m with queue := p.2, history := histAppendLeft p.1 m.history } : List ℕ) : Multiset ℕ) ≤ ((allIndices m : List ℕ) : Multiset ℕ) := by
        rw [allIndices_coe, allIndices_coe]
        have hqeq : ((m.queue.map Script.index : List ℕ) : Multiset ℕ) =
            p.1.index ::ₘ ((p.2.map Script.index : List ℕ) : Multiset ℕ) := by
          rw [Multiset.coe_eq_coe.mpr (hperm.map Script.index)]
          simp
        rw [hqeq]
        calc ((match m.current_script with
                | some c => [c.index]
                | none => ([] : List ℕ)) : Multiset ℕ) +
              ((p.2.map Script.index : List ℕ) : Multiset ℕ) +
              (((histAppendLeft p.1 m.history).map Script.index : List ℕ) :
                Multiset ℕ)
            ≤ ((match m.current_script with
                | some c => [c.index]
                | none => ([] : List ℕ)) : Multiset ℕ) +
              ((p.2.map Script.index : List ℕ) : Multiset ℕ) +
              (p.1.index ::ₘ ((m.history.map Script.index : List ℕ) :
                Multiset ℕ)) :=
              add_le_add_left (histAppendLeft_idx_le p.1 m.history) _
          _ = ((match m.current_script with
                | some c => [c.index]
                | none => ([] : List ℕ)) : Multiset ℕ) +
              (p.1.index ::ₘ ((p.2.map Script.index : List ℕ) : Multiset ℕ)) +
              ((m.history.map Script.index : List ℕ) : Multiset ℕ) := by
              simp only [Multiset.add_cons, Multiset.cons_add]
      split_ifs
      · exact le_trans (update_idx_le _ _) hm1
      · exact hm1
      · exact le_trans (update_idx_le _ _) hm1

/-- C2: the containers never come to share an identifier: when the
identifiers held by current, queue and history are pairwise distinct
before a step, they stay distinct after every completed update step and
after every completed script removal. -/
theorem update_and_remove_preserve_unique_membership
    (m : QueueModel) (pof : Bool) (i : ℕ)
    (h : (allIndices m).Nodup) :
    (allIndices (update_queue pof m)).Nodup ∧
    (allIndices (remove_script i m)).Nodup := by
  constructor
  · exact Multiset.coe_nodup.mp
      (Multiset.nodup_of_le (update_idx_le pof m) (Multiset.coe_nodup.mpr h))
  · exact Multiset.coe_nodup.mp
      (Multiset.nodup_of_le (remove_idx_le i m) (Multiset.coe_nodup.mpr h))

end QueueModel

/-- C2 witness: the unique-membership invariant evaluated on one update
and one removal step of mAdv. -/
theorem unique_membership_witness :
    (QueueModel.allIndices (QueueModel.update_queue true mAdv)).Nodup ∧
    (QueueModel.allIndices (QueueModel.remove_script 1001 mAdv)).Nodup :=
  QueueModel.update_and_remove_preserve_unique_membership mAdv true 1001
    (by decide)

namespace QueueModel

/-- C7: when requeue succeeds, the produced script copies is_standard,
path, config and descr from the script found under the requested index
among current, queue and history, and carries an index that no live
script (current or queued) holds; when no script with the requested index
is found, requeue fails with the not-found error. -/
theorem requeue_fidelity (fs : FS) (sp ep : PPath) (m : QueueModel)
    (i seq loc li : ℕ) :
    (∀ m2 s2, requeue fs sp ep m i seq loc li = .ok (m2, s2) →
      ∃ old, get_script_info m i true = some old ∧
        s2.is_standard = old.is_standard ∧ s2.path = old.path ∧
        s2.config = old.config ∧ s2.descr = old.descr ∧
        (liveIndices m).contains s2.index = false) ∧
    (get_script_info m i true = none →
      requeue fs sp ep m i seq loc li = .error .scriptNotFound) := by
  cases hg : get_script_info m i true with
  | none =>
    constructor
    · intro m2 s2 h
      simp [requeue, hg] at h
    · intro _
      simp [requeue, hg]
  | some old =>
    constructor
    · intro m2 s2 h
      cases hn : nextSalIndex m with
      | none => simp [requeue, hg, hn] at h
      | some ni =>
        simp only [requeue, hg, hn] at h
        cases ha : add fs sp ep { m with index_counter := ni + 1 }
            (newScript ni seq old) loc li with
        | error e => rw [ha] at h; simp at h
        | ok mm =>
          rw [ha] at h
          simp only [Except.ok.injEq, Prod.mk.injEq] at h
          refine ⟨old, rfl, ?_, ?_, ?_, ?_, ?_⟩ <;> rw [← h.2]
          · rfl
          · rfl
          · rfl
          · rfl
          · have hfind := List.find?_some hn
            simp only [Bool.not_eq_true', Bool.not_eq_eq_eq_not] at hfind
            simpa [newScript] using hfind
    · intro hnone
      exact Option.noConfusion hnone

end QueueModel

/-- C7 witness: requeuing the single script of mReq copies its four
identification fields and allocates the fresh index 1001, not live in
mReq. -/
theorem requeue_fidelity_witness :
    sReqNew.is_standard = (sampleScript 1000).is_standard ∧
    sReqNew.path = (sampleScript 1000).path ∧
    sReqNew.config = (sampleScript 1000).config ∧
    sReqNew.descr = (sampleScript 1000).descr ∧
    (QueueModel.liveIndices mReq).contains sReqNew.index = false := by
  obtain ⟨old, hold, h1, h2, h3, h4, h5⟩ :=
    (QueueModel.requeue_fidelity fsStd stdRoot extRoot mReq 1000 5 locLast
      0).1 mReqPost sReqNew (by decide)
  have hh : QueueModel.get_script_info mReq 1000 true =
      some (sampleScript 1000) := by decide
  have hold2 : old = sampleScript 1000 :=
    Option.some.inj (hold.symm.trans hh)
  rw [hold2] at h1 h2 h3 h4
  exact ⟨h1, h2, h3, h4, h5⟩
